import Mathlib

/-!
Verification of the OopsNote frontend task-stream client.

This development embeds, as Lean functions, the client-side task page logic of
the OopsNote repository: the SSE event handlers and user actions of
`frontend/components/TaskLiveView.tsx` (whose stream logic is shared verbatim
with `frontend/hooks/useTaskStream.ts`), the HTTP helper
`frontend/lib/api.ts`, and the options-validation path of `saveEdit`.

Modelling conventions:
* JavaScript strings that only ever get compared for equality are modelled as
  Lean `String`; the live stream text, whose handlers do index arithmetic
  (`slice`), is modelled as a list of UTF-16 code units (`List Char`).
* Optional / possibly-`undefined` payload fields are `Option`s.
* Platform calls that can reject (`response.json()`, `JSON.parse`) are
  modelled by passing their outcome in as an explicit value.
* React state (`useState` / `useRef`) is gathered into one record
  `ClientState`; each handler is a pure function on it.  HTTP requests issued
  by an action are returned alongside the new state, in issue order.
-/

namespace OopsNote

/-- Cap on the displayed stream text kept by the client:
`const MAX_CHARS = 200_000` in `flushStreamBuffer`. -/
def MAX_CHARS : Nat := 200000

/-- JavaScript `a || b` for an optional string field: `undefined`, `null` and
the empty string are all falsy and select `b`. -/
def jsOrString (a : Option String) (b : String) : String :=
  match a with
  | none => b
  | some s => if s = "" then b else s

/-- JavaScript `a || b` where the string value is modelled as a list of UTF-16
code units. -/
def jsOrChars (a : Option (List Char)) (b : List Char) : List Char :=
  match a with
  | none => b
  | some s => if s = [] then b else s

/-- Contribution of one `llm_delta` payload to the concatenated stream text:
a missing delta contributes nothing. -/
def deltaChars (d : Option (List Char)) : List Char := d.getD []

/-- Task snapshot as read by the task page, projected to the one field its
handlers inspect (`data.task.status`). -/
structure TaskSnapshot where
  status : String
  deriving Repr, DecidableEq

/-- React state of the task page (`TaskLiveView`): the `useState` values and
`useRef` cells that the stream handlers and task actions read or write, plus
whether the current `EventSource` subscription is open. -/
structure ClientState where
  data : Option TaskSnapshot
  statusMessage : String
  progressLines : List String
  streamText : List Char
  streamBuffer : List Char
  flushTimerPending : Bool
  hasLoadedStream : Bool
  esOpen : Bool
  deriving Repr, DecidableEq

/-- Initial `useState` / `useRef` values of the task page. -/
def initialClientState : ClientState :=
  { data := none
    statusMessage := ""
    progressLines := []
    streamText := []
    streamBuffer := []
    flushTimerPending := false
    hasLoadedStream := false
    esOpen := false }

/-- HTTP requests the task page can issue, in the order the code issues them. -/
inductive ApiRequest where
  | getTask
  | getStream (maxChars : Nat)
  | postCancel
  | postRetry (background : Bool) (clearStream : Bool)
  deriving Repr, DecidableEq

/-- SSE events of the task event stream, with their parsed payload fields
(`progress`: `status? / stage? / message?`; `llm_delta`: `delta?`;
`llm_snapshot`: `text?`). -/
inductive StreamEvent where
  | progress (message : Option String) (stage : Option String) (status : Option String)
  | llmDelta (delta : Option (List Char))
  | llmSnapshot (text : Option (List Char))
  | done
  | error
  deriving Repr, DecidableEq

/-- The tail-truncation applied by `flushStreamBuffer`:
`next.length > MAX_CHARS ? next.slice(next.length - MAX_CHARS) : next`. -/
def sliceTail (k : Nat) (l : List Char) : List Char :=
  if l.length > k then l.drop (l.length - k) else l

/-- Translation of `flushStreamBuffer`: an empty buffer is falsy and the
function returns at once; otherwise the buffered chunk is appended to the
displayed text, the result is truncated to its last `MAX_CHARS` characters,
and the buffer is cleared. -/
def flushStreamBuffer (s : ClientState) : ClientState :=
  if s.streamBuffer = [] then s
  else
    { s with
      streamText := sliceTail MAX_CHARS (s.streamText ++ s.streamBuffer)
      streamBuffer := [] }

/-- Message derivation in the `progress` handler:
`payload.message || payload.stage || payload.status || "处理中"`. -/
def progressMessage (message stage status : Option String) : String :=
  jsOrString message (jsOrString stage (jsOrString status "处理中"))

/-- Translation of the `progress` event handler: derives the message, shows it
as the status line, and appends it to the progress list unless it equals the
list's current last entry
(`if (prev.length > 0 && prev[prev.length - 1] === message) return prev`). -/
def handleProgress (s : ClientState) (message stage status : Option String) :
    ClientState :=
  let msg := progressMessage message stage status
  { s with
    statusMessage := msg
    progressLines :=
      if s.progressLines.getLast? = some msg then s.progressLines
      else s.progressLines ++ [msg] }

/-- Translation of the `llm_delta` event handler: a missing or empty delta is
falsy and ignored; otherwise the delta is appended to the coalescing buffer
and a flush timer is armed if none is pending. -/
def handleLlmDelta (s : ClientState) (delta : Option (List Char)) : ClientState :=
  match delta with
  | none => s
  | some d =>
    if d = [] then s
    else
      { s with
        streamBuffer := s.streamBuffer ++ d
        flushTimerPending := true }

/-- Translation of the `llm_snapshot` event handler: the displayed text is
replaced by `payload.text || ""`, the coalescing buffer is discarded, and the
stream-history-loaded flag is set. -/
def handleLlmSnapshot (s : ClientState) (text : Option (List Char)) : ClientState :=
  { s with
    streamText := jsOrChars text []
    streamBuffer := []
    hasLoadedStream := true }

/-- Firing of the coalescing flush timer: the timer handle is cleared, then
`flushStreamBuffer` runs. -/
def fireFlushTimer (s : ClientState) : ClientState :=
  if s.flushTimerPending then flushStreamBuffer { s with flushTimerPending := false }
  else s

/-- Translation of one SSE event dispatch on the task page.  `done` closes the
subscription, flushes the buffer and then re-reads the task snapshot
(`loadOnce`); `error` closes the subscription, shows a disconnect notice and
flushes the buffer.  The returned list holds the HTTP requests the handler
issues, in order. -/
def handleEvent (s : ClientState) (e : StreamEvent) : ClientState × List ApiRequest :=
  match e with
  | .progress message stage status => (handleProgress s message stage status, [])
  | .llmDelta delta => (handleLlmDelta s delta, [])
  | .llmSnapshot text => (handleLlmSnapshot s text, [])
  | .done => (flushStreamBuffer { s with esOpen := false }, [ApiRequest.getTask])
  | .error =>
    (flushStreamBuffer
      { s with
        esOpen := false
        statusMessage := "进度流断开，可点击“查看最新状态”刷新。" }, [])

/-- Dispatch loop of one `EventSource` subscription: events are delivered in
order while the subscription is open; once `close()` has run, no further event
of this subscription is dispatched. -/
def runEvents (s : ClientState) (evts : List StreamEvent) :
    ClientState × List ApiRequest :=
  match evts with
  | [] => (s, [])
  | e :: rest =>
    if s.esOpen then
      let step := handleEvent s e
      let next := runEvents step.1 rest
      (next.1, step.2 ++ next.2)
    else (s, [])

/-- Translation of `cancelTask`: no-op without task data or from a status other
than `pending`/`processing`; otherwise POSTs the cancel endpoint and, when that
request succeeds (`fetchOk`), re-reads the task snapshot. -/
def cancelTask (s : ClientState) (fetchOk : Bool) : ClientState × List ApiRequest :=
  match s.data with
  | none => (s, [])
  | some task =>
    if task.status != "pending" && task.status != "processing" then (s, [])
    else if fetchOk then (s, [ApiRequest.postCancel, ApiRequest.getTask])
    else (s, [ApiRequest.postCancel])

/-- Translation of `retryTask`: no-op without task data or from a status other
than `failed`/`completed`; otherwise resets the local stream state, closes any
open subscription, POSTs `retry?background=true&clear_stream=true`, and, when
that request succeeds (`fetchOk`), re-reads the task snapshot and the stream
history. -/
def retryTask (s : ClientState) (fetchOk : Bool) : ClientState × List ApiRequest :=
  match s.data with
  | none => (s, [])
  | some task =>
    if task.status != "failed" && task.status != "completed" then (s, [])
    else
      let s1 : ClientState :=
        { s with
          statusMessage := "准备重试..."
          progressLines := []
          streamBuffer := []
          streamText := []
          hasLoadedStream := false
          esOpen := false }
      if fetchOk then
        (s1, [ApiRequest.postRetry true true, ApiRequest.getTask,
              ApiRequest.getStream MAX_CHARS])
      else (s1, [ApiRequest.postRetry true true])

/-- Translation of `resetStream` from `useTaskStream`. -/
def resetStream (s : ClientState) : ClientState :=
  { s with
    streamBuffer := []
    streamText := []
    progressLines := []
    hasLoadedStream := false }

/-- Render condition of the cancel button in `TaskActions` / `TaskLiveView`:
`(status === "pending" || status === "processing")`. -/
def cancelButtonRendered (status : Option String) : Bool :=
  status == some "pending" || status == some "processing"

/-- Render condition of the retry button in `TaskActions` / `TaskLiveView`:
`(status === "failed" || status === "completed")`. -/
def retryButtonRendered (status : Option String) : Bool :=
  status == some "failed" || status == some "completed"

/-- One flush interval of delta coalescing: the deltas of the interval are
buffered by the `llm_delta` handler and then flushed once by the timer. -/
def applyDeltaGroup (s : ClientState) (g : List (Option (List Char))) : ClientState :=
  flushStreamBuffer (g.foldl handleLlmDelta s)

/-- A whole run of delta coalescing: the received deltas, grouped into flush
intervals, each interval ending in its flush. -/
def applyDeltaGroups (s : ClientState) (gs : List (List (Option (List Char)))) :
    ClientState :=
  gs.foldl applyDeltaGroup s

/-- HTTP response as observed by `fetchJson`.  `parsedJson` models the outcome
of the platform call `response.json()`: `none` when the body text is not valid
JSON (for example an empty body), in which case that call rejects. -/
structure HttpResponse (J : Type) where
  ok : Bool
  status : Nat
  bodyText : String
  parsedJson : Option J
  deriving Repr, DecidableEq

/-- Possible outcomes of `fetchJson`: a returned value, a thrown `Error` with
its message, or a propagated `response.json()` rejection. -/
inductive FetchOutcome (J : Type) where
  | ok (value : J)
  | thrown (message : String)
  | jsonRejected
  deriving Repr, DecidableEq

/-- Translation of `fetchJson` (`frontend/lib/api.ts`): on a non-ok response it
throws an `Error` whose message is the body text, or `请求失败: <status>` when
the body text is empty (falsy); on an ok response it returns the parsed JSON
body, the parse rejection propagating when the body is not valid JSON. -/
def fetchJson {J : Type} (r : HttpResponse J) : FetchOutcome J :=
  if r.ok = false then
    FetchOutcome.thrown
      (if r.bodyText = "" then "请求失败: " ++ toString r.status else r.bodyText)
  else
    match r.parsedJson with
    | some v => FetchOutcome.ok v
    | none => FetchOutcome.jsonRejected

/-- One entry of the options array as produced by `JSON.parse`: both fields may
be missing (`opt?.key`, `opt?.text`). -/
structure RawOptionEntry where
  key : Option String
  text : Option String
  deriving Repr, DecidableEq

/-- Outcome of `JSON.parse` on the options JSON text, as observed by
`saveEdit`: a rejection with its message, a parse to a non-array value, or a
parse to an array of entries. -/
inductive OptionsJsonParsed where
  | parseFailure (message : String)
  | nonArray
  | array (entries : List RawOptionEntry)
  deriving Repr, DecidableEq

/-- Normalised option entry kept by `saveEdit`. -/
structure OptionEntry where
  key : String
  text : String
  deriving Repr, DecidableEq

/-- Executable model of JavaScript `String.prototype.trim` (and of Lean's
`String.trim`): remove whitespace characters from both ends.  Written
structurally over the character list so that it evaluates inside the
kernel. -/
def jsTrim (s : String) : String :=
  String.mk
    (((s.data.dropWhile Char.isWhitespace).reverse.dropWhile Char.isWhitespace).reverse)

/-- Normalisation of one parsed entry:
`key: String(opt?.key || "").trim(), text: String(opt?.text || "").trim()`. -/
def normalizeOption (r : RawOptionEntry) : OptionEntry :=
  { key := jsTrim (jsOrString r.key "")
    text := jsTrim (jsOrString r.text "") }

/-- Outcome of the options-validation path of `saveEdit`: either an options
error is recorded and the function returns before `overrideProblem`, or the
override request is sent with the validated options. -/
inductive SaveEditOutcome where
  | optionsError (message : String)
  | overrideSent (options : List OptionEntry)
  deriving Repr, DecidableEq

/-- Translation of the options-validation path of `saveEdit`: an empty (after
trim) options field sends the override with no options; otherwise the field
must parse as a JSON array (`选项 JSON 必须是数组` when it parses to a
non-array, the parse message when `JSON.parse` rejects), and after
normalisation at least one entry must keep both a non-empty key and a
non-empty text (`选项 JSON 为空或格式不正确` otherwise); only then is the
override sent.  `parsed` is the outcome of `JSON.parse` on the trimmed
field. -/
def saveEditOptions (optionsJson : String) (parsed : OptionsJsonParsed) :
    SaveEditOutcome :=
  if jsTrim optionsJson = "" then SaveEditOutcome.overrideSent []
  else
    match parsed with
    | .parseFailure m => SaveEditOutcome.optionsError m
    | .nonArray => SaveEditOutcome.optionsError "选项 JSON 必须是数组"
    | .array entries =>
      let parsedOptions :=
        (entries.map normalizeOption).filter (fun o => o.key != "" && o.text != "")
      if parsedOptions = [] then SaveEditOutcome.optionsError "选项 JSON 为空或格式不正确"
      else SaveEditOutcome.overrideSent parsedOptions

theorem sliceTail_eq_drop (k : Nat) (l : List Char) :
    sliceTail k l = l.drop (l.length - k) := by
  unfold sliceTail
  by_cases h : l.length > k
  · rw [if_pos h]
  · rw [if_neg h]
    have h0 : l.length - k = 0 := by omega
    rw [h0, List.drop_zero]

theorem sliceTail_of_le (k : Nat) (l : List Char) (h : l.length ≤ k) :
    sliceTail k l = l := by
  unfold sliceTail
  rw [if_neg (by omega)]

theorem length_sliceTail (k : Nat) (l : List Char) :
    (sliceTail k l).length = min l.length k := by
  rw [sliceTail_eq_drop, List.length_drop]
  omega

theorem sliceTail_sliceTail (k : Nat) (l : List Char) :
    sliceTail k (sliceTail k l) = sliceTail k l := by
  apply sliceTail_of_le
  rw [length_sliceTail]
  omega

theorem sliceTail_suffix (k : Nat) (l : List Char) : sliceTail k l <:+ l := by
  rw [sliceTail_eq_drop]
  exact List.drop_suffix _ _

theorem sliceTail_append (k : Nat) (a b : List Char) :
    sliceTail k (sliceTail k a ++ b) = sliceTail k (a ++ b) := by
  rcases le_or_lt a.length k with h | h
  · rw [sliceTail_of_le k a h]
  · rw [sliceTail_eq_drop k a, sliceTail_eq_drop, sliceTail_eq_drop,
      List.drop_append_eq_append_drop, List.drop_append_eq_append_drop,
      List.drop_drop]
    have h1 : a.length - k + ((a.drop (a.length - k) ++ b).length - k)
        = (a ++ b).length - k := by
      simp only [List.length_append, List.length_drop]
      omega
    have h2 : (a.drop (a.length - k) ++ b).length - k - (a.drop (a.length - k)).length
        = (a ++ b).length - k - a.length := by
      simp only [List.length_append, List.length_drop]
      omega
    rw [h1, h2]

theorem handleLlmDelta_streamText (s : ClientState) (d : Option (List Char)) :
    (handleLlmDelta s d).streamText = s.streamText := by
  cases d with
  | none => rfl
  | some d =>
    by_cases h : d = [] <;> simp [handleLlmDelta, h]

theorem handleLlmDelta_streamBuffer (s : ClientState) (d : Option (List Char)) :
    (handleLlmDelta s d).streamBuffer = s.streamBuffer ++ deltaChars d := by
  cases d with
  | none => simp [handleLlmDelta, deltaChars]
  | some d =>
    by_cases h : d = [] <;> simp [handleLlmDelta, deltaChars, h]

theorem foldl_handleLlmDelta_streamText (g : List (Option (List Char)))
    (s : ClientState) :
    (g.foldl handleLlmDelta s).streamText = s.streamText := by
  induction g generalizing s with
  | nil => rfl
  | cons d g ih =>
    rw [List.foldl_cons, ih, handleLlmDelta_streamText]

theorem foldl_handleLlmDelta_streamBuffer (g : List (Option (List Char)))
    (s : ClientState) :
    (g.foldl handleLlmDelta s).streamBuffer
      = s.streamBuffer ++ (g.map deltaChars).flatten := by
  induction g generalizing s with
  | nil => simp
  | cons d g ih =>
    rw [List.foldl_cons, ih, handleLlmDelta_streamBuffer]
    simp

theorem flushStreamBuffer_streamBuffer (s : ClientState) :
    (flushStreamBuffer s).streamBuffer = [] := by
  unfold flushStreamBuffer
  by_cases h : s.streamBuffer = []
  · rw [if_pos h]
    exact h
  · rw [if_neg h]

theorem applyDeltaGroups_spec (gs : List (List (Option (List Char))))
    (s : ClientState) (hbuf : s.streamBuffer = []) :
    (applyDeltaGroups s gs).streamBuffer = [] ∧
    (applyDeltaGroups s gs).streamText =
      (if (gs.flatten.map deltaChars).flatten = [] then s.streamText
       else sliceTail MAX_CHARS (s.streamText ++ (gs.flatten.map deltaChars).flatten)) := by
  induction gs generalizing s with
  | nil =>
    refine ⟨hbuf, ?_⟩
    simp [applyDeltaGroups]
  | cons g gs ih =>
    have hcons : applyDeltaGroups s (g :: gs)
        = applyDeltaGroups (applyDeltaGroup s g) gs := rfl
    have hfoldText := foldl_handleLlmDelta_streamText g s
    have hfoldBuf := foldl_handleLlmDelta_streamBuffer g s
    rw [hbuf, List.nil_append] at hfoldBuf
    have hjoin : ((g :: gs).flatten.map deltaChars).flatten
        = (g.map deltaChars).flatten ++ (gs.flatten.map deltaChars).flatten := by
      simp
    have hstepBuf : (applyDeltaGroup s g).streamBuffer = [] :=
      flushStreamBuffer_streamBuffer _
    by_cases hg : (g.map deltaChars).flatten = []
    · have hstepText : (applyDeltaGroup s g).streamText = s.streamText := by
        unfold applyDeltaGroup flushStreamBuffer
        rw [hfoldBuf, if_pos hg, hfoldText]
      obtain ⟨ih1, ih2⟩ := ih (applyDeltaGroup s g) hstepBuf
      refine ⟨by rw [hcons]; exact ih1, ?_⟩
      rw [hcons, ih2, hstepText, hjoin, hg, List.nil_append]
    · have hstepText : (applyDeltaGroup s g).streamText
          = sliceTail MAX_CHARS (s.streamText ++ (g.map deltaChars).flatten) := by
        unfold applyDeltaGroup flushStreamBuffer
        rw [hfoldBuf, if_neg hg, hfoldText]
      obtain ⟨ih1, ih2⟩ := ih (applyDeltaGroup s g) hstepBuf
      refine ⟨by rw [hcons]; exact ih1, ?_⟩
      by_cases hrest : (gs.flatten.map deltaChars).flatten = []
      · rw [hcons, ih2, if_pos hrest, hstepText, hjoin, hrest, List.append_nil,
          if_neg hg]
      · rw [hcons, ih2, if_neg hrest, hstepText, sliceTail_append,
          List.append_assoc, hjoin]
        rw [if_neg (by simp [hg])]

theorem runEvents_of_closed (s : ClientState) (evts : List StreamEvent)
    (h : s.esOpen = false) : runEvents s evts = (s, []) := by
  cases evts with
  | nil => rfl
  | cons e rest => simp [runEvents, h]

theorem runEvents_cons (s : ClientState) (e : StreamEvent)
    (rest : List StreamEvent) (h : s.esOpen = true) :
    runEvents s (e :: rest) =
      ((runEvents (handleEvent s e).1 rest).1,
        (handleEvent s e).2 ++ (runEvents (handleEvent s e).1 rest).2) := by
  simp [runEvents, h]

theorem flushStreamBuffer_esOpen (s : ClientState) :
    (flushStreamBuffer s).esOpen = s.esOpen := by
  unfold flushStreamBuffer
  by_cases h : s.streamBuffer = []
  · rw [if_pos h]
  · rw [if_neg h]

theorem flushStreamBuffer_progressLines (s : ClientState) :
    (flushStreamBuffer s).progressLines = s.progressLines := by
  unfold flushStreamBuffer
  by_cases h : s.streamBuffer = []
  · rw [if_pos h]
  · rw [if_neg h]

theorem flushStreamBuffer_streamText (s : ClientState) :
    (flushStreamBuffer s).streamText =
      (if s.streamBuffer = [] then s.streamText
       else sliceTail MAX_CHARS (s.streamText ++ s.streamBuffer)) := by
  unfold flushStreamBuffer
  by_cases h : s.streamBuffer = []
  · rw [if_pos h, if_pos h]
  · rw [if_neg h, if_neg h]

theorem handleLlmDelta_progressLines (s : ClientState) (d : Option (List Char)) :
    (handleLlmDelta s d).progressLines = s.progressLines := by
  cases d with
  | none => rfl
  | some d =>
    by_cases h : d = [] <;> simp [handleLlmDelta, h]

/-- C1: the retry button is rendered exactly when the task status is `failed`
or `completed`, and for every other status (or absent task data) `retryTask`
returns with the client state unchanged and no request issued. -/
theorem retry_only_from_failed_or_completed :
    (∀ st : Option String,
      retryButtonRendered st = true ↔ (st = some "failed" ∨ st = some "completed")) ∧
    (∀ (s : ClientState) (task : TaskSnapshot) (fetchOk : Bool),
      s.data = some task → task.status ≠ "failed" → task.status ≠ "completed" →
      retryTask s fetchOk = (s, [])) ∧
    (∀ (s : ClientState) (fetchOk : Bool),
      s.data = none → retryTask s fetchOk = (s, [])) := by
  refine ⟨?_, ?_, ?_⟩
  · intro st
    cases st <;> simp [retryButtonRendered]
  · intro s task fetchOk hd h1 h2
    unfold retryTask
    rw [hd]
    simp [h1, h2]
  · intro s fetchOk hd
    unfold retryTask
    rw [hd]

/-- Witness for the C1 theorem: a task in status `processing` is not
retried. -/
theorem retry_only_from_failed_or_completed_witness :
    retryTask { initialClientState with data := some { status := "processing" } } true
      = ({ initialClientState with data := some { status := "processing" } }, []) :=
  retry_only_from_failed_or_completed.2.1 _ { status := "processing" } true rfl
    (by decide) (by decide)

/-- C2: the cancel button is rendered exactly when the task status is `pending`
or `processing`, and for every other status (or absent task data) `cancelTask`
returns with the client state unchanged and no request issued. -/
theorem cancel_only_from_pending_or_processing :
    (∀ st : Option String,
      cancelButtonRendered st = true ↔ (st = some "pending" ∨ st = some "processing")) ∧
    (∀ (s : ClientState) (task : TaskSnapshot) (fetchOk : Bool),
      s.data = some task → task.status ≠ "pending" → task.status ≠ "processing" →
      cancelTask s fetchOk = (s, [])) ∧
    (∀ (s : ClientState) (fetchOk : Bool),
      s.data = none → cancelTask s fetchOk = (s, [])) := by
  refine ⟨?_, ?_, ?_⟩
  · intro st
    cases st <;> simp [cancelButtonRendered]
  · intro s task fetchOk hd h1 h2
    unfold cancelTask
    rw [hd]
    simp [h1, h2]
  · intro s fetchOk hd
    unfold cancelTask
    rw [hd]

/-- Witness for the C2 theorem: a task in status `completed` is not
cancelled. -/
theorem cancel_only_from_pending_or_processing_witness :
    cancelTask { initialClientState with data := some { status := "completed" } } true
      = ({ initialClientState with data := some { status := "completed" } }, []) :=
  cancel_only_from_pending_or_processing.2.1 _ { status := "completed" } true rfl
    (by decide) (by decide)

/-- C3: the `done` handler closes the subscription, flushes the buffered delta
text into the displayed stream text, and then re-reads the task snapshot; and
once a `done` event is dispatched, no later event of the same subscription is
processed, so `done` is the last event of the subscription's lifetime. -/
theorem done_event_closes_flushes_reloads :
    ∀ s : ClientState, s.esOpen = true →
      (handleEvent s StreamEvent.done).1.esOpen = false ∧
      (handleEvent s StreamEvent.done).1.streamBuffer = [] ∧
      (handleEvent s StreamEvent.done).1.streamText =
        (if s.streamBuffer = [] then s.streamText
         else sliceTail MAX_CHARS (s.streamText ++ s.streamBuffer)) ∧
      (handleEvent s StreamEvent.done).2 = [ApiRequest.getTask] ∧
      (∀ rest : List StreamEvent,
        runEvents s (StreamEvent.done :: rest) = runEvents s [StreamEvent.done]) := by
  intro s hopen
  have hclosed : (handleEvent s StreamEvent.done).1.esOpen = false := by
    show (flushStreamBuffer { s with esOpen := false }).esOpen = false
    rw [flushStreamBuffer_esOpen]
  refine ⟨hclosed, ?_, ?_, rfl, ?_⟩
  · exact flushStreamBuffer_streamBuffer _
  · show (flushStreamBuffer { s with esOpen := false }).streamText = _
    rw [flushStreamBuffer_streamText]
  · intro rest
    rw [runEvents_cons s StreamEvent.done rest hopen,
      runEvents_cons s StreamEvent.done [] hopen,
      runEvents_of_closed _ rest hclosed, runEvents_of_closed _ [] hclosed]

/-- Witness for the C3 theorem at a concrete open-subscription state. -/
theorem done_event_closes_flushes_reloads_witness :
    (handleEvent { initialClientState with esOpen := true } StreamEvent.done).2
      = [ApiRequest.getTask] :=
  (done_event_closes_flushes_reloads _ rfl).2.2.2.1

/-- Concrete oversized delta: one character more than the display cap. -/
def bigDelta : List Char := List.replicate (MAX_CHARS + 1) 'a'

/-- C4 counterexample: a single `llm_delta` event carrying 200001 characters,
flushed once from a freshly initialised client, leaves a displayed stream text
that differs from the concatenation of the received non-empty deltas — the
flush truncates to the final 200000 characters, so data beyond the cap is lost
from the displayed text. -/
theorem delta_coalescing_counterexample :
    (applyDeltaGroups initialClientState [[some bigDelta]]).streamText ≠
      (([[some bigDelta]] :
          List (List (Option (List Char)))).flatten.map deltaChars).flatten := by
  have hflat : (([[some bigDelta]] :
      List (List (Option (List Char)))).flatten.map deltaChars).flatten = bigDelta := by
    simp [deltaChars]
  have hne : bigDelta ≠ [] := by
    intro h
    have hlen0 := congrArg List.length h
    simp [bigDelta] at hlen0
  obtain ⟨-, htext⟩ := applyDeltaGroups_spec [[some bigDelta]] initialClientState rfl
  rw [htext, hflat, if_neg hne]
  intro h
  have hlen := congrArg List.length h
  rw [length_sliceTail] at hlen
  simp only [List.length_append, bigDelta, List.length_replicate] at hlen
  have hinit : initialClientState.streamText.length = 0 := rfl
  rw [hinit] at hlen
  omega

/-- C4 amended: delta coalescing is lossless only up to the 200000-character
display cap — starting from a reset stream, after the final flush the
displayed stream text equals the last `min(total, 200000)` characters of the
concatenation, in arrival order, of all non-empty delta strings received,
regardless of how the deltas were grouped into flush intervals. -/
theorem delta_coalescing_capped_suffix (s : ClientState)
    (gs : List (List (Option (List Char)))) :
    (applyDeltaGroups (resetStream s) gs).streamText
      = sliceTail MAX_CHARS (gs.flatten.map deltaChars).flatten := by
  obtain ⟨-, htext⟩ := applyDeltaGroups_spec gs (resetStream s) rfl
  rw [htext]
  have h0 : (resetStream s).streamText = [] := rfl
  rw [h0]
  by_cases h : (gs.flatten.map deltaChars).flatten = []
  · rw [if_pos h, h]
    simp [sliceTail]
  · rw [if_neg h, List.nil_append]

/-- C5: handling an `llm_snapshot` event carrying text `T` resynchronises the
client: the displayed stream text becomes exactly `T`, every buffered but
unflushed delta is discarded, the stream-history-loaded flag is set, no
request is issued, and any deltas processed and flushed afterwards extend `T`
(up to the display cap) rather than pre-snapshot buffered text. -/
theorem llm_snapshot_resynchronizes (s : ClientState) (T : List Char)
    (gs : List (List (Option (List Char)))) :
    ((handleEvent s (StreamEvent.llmSnapshot (some T))).1.streamText = T) ∧
    ((handleEvent s (StreamEvent.llmSnapshot (some T))).1.streamBuffer = []) ∧
    ((handleEvent s (StreamEvent.llmSnapshot (some T))).1.hasLoadedStream = true) ∧
    ((handleEvent s (StreamEvent.llmSnapshot (some T))).2 = []) ∧
    ((applyDeltaGroups (handleEvent s (StreamEvent.llmSnapshot (some T))).1 gs).streamText
      = (if (gs.flatten.map deltaChars).flatten = [] then T
         else sliceTail MAX_CHARS (T ++ (gs.flatten.map deltaChars).flatten))) := by
  have h1 : (handleEvent s (StreamEvent.llmSnapshot (some T))).1.streamText = T := by
    show jsOrChars (some T) [] = T
    by_cases h : T = [] <;> simp [jsOrChars, h]
  refine ⟨h1, rfl, rfl, rfl, ?_⟩
  obtain ⟨-, htext⟩ :=
    applyDeltaGroups_spec gs (handleEvent s (StreamEvent.llmSnapshot (some T))).1 rfl
  rw [htext, h1]

/-- C6: from a retryable status, `retryTask` resets the displayed stream text,
the progress lines, the pending delta buffer and the stream-history-loaded
flag to their initial empty values, and the first request it issues is the
retry endpoint with `background=true` and `clear_stream=true`; every retry
request it ever issues carries both flags true. -/
theorem retryTask_eq (s : ClientState) (task : TaskSnapshot) (fetchOk : Bool)
    (hd : s.data = some task)
    (hguard : (task.status != "failed" && task.status != "completed") = false) :
    retryTask s fetchOk =
      ({ s with
          statusMessage := "准备重试..."
          progressLines := []
          streamBuffer := []
          streamText := []
          hasLoadedStream := false
          esOpen := false },
        if fetchOk then
          [ApiRequest.postRetry true true, ApiRequest.getTask,
            ApiRequest.getStream MAX_CHARS]
        else [ApiRequest.postRetry true true]) := by
  unfold retryTask
  rw [hd]
  dsimp only
  rw [hguard]
  cases fetchOk <;> simp

theorem retry_clears_stream_and_requests_background
    (s : ClientState) (task : TaskSnapshot) (fetchOk : Bool)
    (hd : s.data = some task)
    (hst : task.status = "failed" ∨ task.status = "completed") :
    ((retryTask s fetchOk).1.streamText = [] ∧
     (retryTask s fetchOk).1.progressLines = [] ∧
     (retryTask s fetchOk).1.streamBuffer = [] ∧
     (retryTask s fetchOk).1.hasLoadedStream = false) ∧
    ((retryTask s fetchOk).2.head? = some (ApiRequest.postRetry true true)) ∧
    (∀ b c : Bool, ApiRequest.postRetry b c ∈ (retryTask s fetchOk).2 →
      b = true ∧ c = true) := by
  have hguard : (task.status != "failed" && task.status != "completed") = false := by
    rcases hst with h | h <;> simp [h]
  rw [retryTask_eq s task fetchOk hd hguard]
  refine ⟨⟨rfl, rfl, rfl, rfl⟩, ?_, ?_⟩
  · cases fetchOk <;> rfl
  · intro b c hm
    cases fetchOk <;> simp at hm <;> exact hm

/-- Witness for the C6 theorem at a concrete failed task. -/
theorem retry_clears_stream_witness :
    (retryTask { initialClientState with data := some { status := "failed" } } true).2.head?
      = some (ApiRequest.postRetry true true) :=
  (retry_clears_stream_and_requests_background _ { status := "failed" } true rfl
    (Or.inl rfl)).2.1

/-- C7 counterexample: an ok-status response whose body is empty — hence not
valid JSON, so `response.json()` rejects.  `fetchJson` then does not return a
parsed JSON body even though the response status is ok, refuting the claim's
"returns the parsed JSON body if and only if the response status is ok" at
this input (the rejection propagates instead). -/
theorem fetchJson_ok_unparseable_counterexample :
    fetchJson { ok := true, status := 200, bodyText := "",
                parsedJson := (none : Option Unit) } ≠ FetchOutcome.ok () := by
  decide

/-- C7 amended: `fetchJson` returns the parsed JSON body exactly when the
response status is ok and the body parses as JSON; on a non-ok response it
throws an `Error` whose message is the body text, or `请求失败: <status>` when
the body is empty; on an ok response whose body does not parse, the
`response.json()` rejection propagates instead of a return value. -/
theorem fetchJson_spec {J : Type} (r : HttpResponse J) :
    (∀ v : J, fetchJson r = FetchOutcome.ok v ↔ (r.ok = true ∧ r.parsedJson = some v)) ∧
    (r.ok = false →
      fetchJson r = FetchOutcome.thrown
        (if r.bodyText = "" then "请求失败: " ++ toString r.status else r.bodyText)) ∧
    (r.ok = true → r.parsedJson = none → fetchJson r = FetchOutcome.jsonRejected) := by
  unfold fetchJson
  refine ⟨?_, ?_, ?_⟩
  · intro v
    cases hok : r.ok
    · simp
    · cases hp : r.parsedJson <;> simp
  · intro hok
    rw [hok]
    simp
  · intro hok hp
    rw [hok, hp]
    simp

/-- Witness for the C7 amended theorem: a 404 with a non-empty body throws the
body text. -/
theorem fetchJson_spec_witness :
    fetchJson { ok := false, status := 404, bodyText := "task not found",
                parsedJson := (none : Option Unit) }
      = FetchOutcome.thrown
          (if "task not found" = "" then "请求失败: " ++ toString 404
           else "task not found") :=
  (fetchJson_spec _).2.1 rfl

/-- C8: with a non-empty buffered chunk, `flushStreamBuffer` sets the displayed
text to the last `min(length, 200000)` characters — a suffix — of the previous
text followed by the chunk, and empties the buffer; with an empty buffer it
changes nothing. -/
theorem flushStreamBuffer_spec (s : ClientState) :
    (s.streamBuffer = [] → flushStreamBuffer s = s) ∧
    (s.streamBuffer ≠ [] →
      (flushStreamBuffer s).streamBuffer = [] ∧
      (flushStreamBuffer s).streamText
        = sliceTail MAX_CHARS (s.streamText ++ s.streamBuffer) ∧
      (flushStreamBuffer s).streamText <:+ (s.streamText ++ s.streamBuffer) ∧
      (flushStreamBuffer s).streamText.length
        = min (s.streamText ++ s.streamBuffer).length MAX_CHARS) := by
  constructor
  · intro h
    unfold flushStreamBuffer
    rw [if_pos h]
  · intro h
    have htext : (flushStreamBuffer s).streamText
        = sliceTail MAX_CHARS (s.streamText ++ s.streamBuffer) := by
      unfold flushStreamBuffer
      rw [if_neg h]
    refine ⟨flushStreamBuffer_streamBuffer s, htext, ?_, ?_⟩
    · rw [htext]
      exact sliceTail_suffix _ _
    · rw [htext, length_sliceTail]

/-- Witness for the C8 theorem at a concrete one-character buffer. -/
theorem flushStreamBuffer_spec_witness :
    (flushStreamBuffer { initialClientState with streamBuffer := ['a'] }).streamText
      = sliceTail MAX_CHARS
          (({ initialClientState with streamBuffer := ['a'] } : ClientState).streamText
            ++ ({ initialClientState with streamBuffer := ['a'] } : ClientState).streamBuffer) :=
  ((flushStreamBuffer_spec _).2 (by decide)).2.1

/-- Claim-side reading of the progress message: the first non-empty string
among the candidate fields, else the default. -/
def firstNonEmptyField (fields : List (Option String)) (dflt : String) : String :=
  match fields with
  | [] => dflt
  | f :: rest =>
    match f with
    | some s => if s ≠ "" then s else firstNonEmptyField rest dflt
    | none => firstNonEmptyField rest dflt

/-- C9: the `progress` handler derives the message as the first non-empty of
`payload.message`, `payload.stage`, `payload.status`, or `处理中`, appends it
only when it differs from the current last entry, and every event dispatch
preserves adjacent distinctness of the progress lines. -/
theorem progress_lines_no_adjacent_duplicates :
    (∀ message stage status : Option String,
      progressMessage message stage status
        = firstNonEmptyField [message, stage, status] "处理中") ∧
    (∀ (s : ClientState) (message stage status : Option String),
      (handleProgress s message stage status).progressLines =
        (if s.progressLines.getLast? = some (progressMessage message stage status)
         then s.progressLines
         else s.progressLines ++ [progressMessage message stage status])) ∧
    (∀ (s : ClientState) (e : StreamEvent),
      s.progressLines.Chain' (· ≠ ·) →
      ((handleEvent s e).1.progressLines).Chain' (· ≠ ·)) := by
  refine ⟨?_, ?_, ?_⟩
  · intro message stage status
    cases message <;> cases stage <;> cases status <;>
      simp only [progressMessage, jsOrString, firstNonEmptyField, ne_eq, ite_not]
  · intro s message stage status
    rfl
  · intro s e hchain
    cases e with
    | progress message stage status =>
      show ((handleProgress s message stage status).progressLines).Chain' (· ≠ ·)
      unfold handleProgress
      dsimp only
      by_cases h : s.progressLines.getLast? = some (progressMessage message stage status)
      · rw [if_pos h]
        exact hchain
      · rw [if_neg h]
        rw [List.chain'_append]
        refine ⟨hchain, List.chain'_singleton _, ?_⟩
        intro x hx y hy
        simp only [List.head?_cons, Option.mem_def, Option.some.injEq] at hy
        intro hxy
        apply h
        rw [Option.mem_def] at hx
        rw [hx, hxy, ← hy]
    | llmDelta d =>
      show ((handleLlmDelta s d).progressLines).Chain' (· ≠ ·)
      rw [handleLlmDelta_progressLines]
      exact hchain
    | llmSnapshot t => exact hchain
    | done =>
      show ((flushStreamBuffer { s with esOpen := false }).progressLines).Chain' (· ≠ ·)
      rw [flushStreamBuffer_progressLines]
      exact hchain
    | error =>
      show ((flushStreamBuffer _).progressLines).Chain' (· ≠ ·)
      rw [flushStreamBuffer_progressLines]
      exact hchain

/-- Witness for the C9 theorem: one progress event on a fresh client keeps the
progress lines adjacent-distinct. -/
theorem progress_lines_no_adjacent_duplicates_witness :
    ((handleEvent initialClientState
        (StreamEvent.progress (some "OCR") none none)).1.progressLines).Chain' (· ≠ ·) :=
  progress_lines_no_adjacent_duplicates.2.2 initialClientState
    (StreamEvent.progress (some "OCR") none none) List.chain'_nil

/-- C10: when the options JSON field is non-empty after trimming and either
does not parse as a JSON array or yields, after normalisation, no entry with
both a non-empty key and a non-empty text, `saveEdit` records an options error
and returns before `overrideProblem` — no override request is sent. -/
theorem saveEdit_invalid_options_no_override
    (optionsJson : String) (parsed : OptionsJsonParsed)
    (hraw : jsTrim optionsJson ≠ "")
    (h : (∀ entries, parsed ≠ OptionsJsonParsed.array entries) ∨
         (∃ entries, parsed = OptionsJsonParsed.array entries ∧
           ((entries.map normalizeOption).filter
             (fun o => o.key != "" && o.text != "")) = [])) :
    (∃ m, saveEditOptions optionsJson parsed = SaveEditOutcome.optionsError m) ∧
    (∀ opts, saveEditOptions optionsJson parsed ≠ SaveEditOutcome.overrideSent opts) := by
  have hmain : ∃ m, saveEditOptions optionsJson parsed = SaveEditOutcome.optionsError m := by
    unfold saveEditOptions
    rw [if_neg hraw]
    cases parsed with
    | parseFailure m => exact ⟨m, rfl⟩
    | nonArray => exact ⟨"选项 JSON 必须是数组", rfl⟩
    | array entries =>
      rcases h with h | ⟨entries2, heq, hfilter⟩
      · exact absurd rfl (h entries)
      · cases heq
        dsimp only
        rw [if_pos hfilter]
        exact ⟨"选项 JSON 为空或格式不正确", rfl⟩
  obtain ⟨m, hm⟩ := hmain
  refine ⟨⟨m, hm⟩, ?_⟩
  intro opts hcontra
  rw [hm] at hcontra
  exact SaveEditOutcome.noConfusion hcontra

/-- Witness for the C10 theorem: a non-empty options field that parses to a
non-array value yields an options error. -/
theorem saveEdit_invalid_options_no_override_witness :
    ∃ m, saveEditOptions "1" OptionsJsonParsed.nonArray = SaveEditOutcome.optionsError m :=
  (saveEdit_invalid_options_no_override "1" OptionsJsonParsed.nonArray (by decide)
    (Or.inl fun entries hc => OptionsJsonParsed.noConfusion hc)).1

end OopsNote
